import Mathlib

/-!
Verification development for the majik-bond fixed-coupon bond calculator.

The TypeScript sources are shallowly embedded as follows.

Numbers.  All `number` / `Decimal` quantities are modelled as exact rationals
(`ℚ`).  The library configures Decimal.js with 40-digit precision and
ROUND_HALF_EVEN; the exact-rational model is the idealisation of that
arbitrary-precision arithmetic.  The external MajikMoney type (declared out of
scope by the specification, "an arbitrary-precision money abstraction with
minor-unit integer backing") is modelled as an exact rational amount expressed
in major currency units, with the default PHP currency (2 decimal places, so
one major unit = 100 minor units); its multiply / divide / add / subtract /
ratio operations are modelled exactly.

Dates.  ISO date strings parsed with `new Date` / luxon in UTC are modelled at
calendar-day granularity as year/month/day triples (`YMD`).  JavaScript `Date`
timestamp comparison coincides with lexicographic comparison of valid
year/month/day triples, which is what `key` implements.  Day differences are
computed through `daysFromCivil`, the standard proleptic-Gregorian
day-numbering (days since 1970-01-01).

Control flow.  Loops become fuel-indexed structural recursions with a fuel
that provably suffices; thrown validation errors become an `Option String`
error component returned next to the post-call state, so that the state an
exception leaves behind is observable.
-/

/-- Calendar date (UTC, day granularity): year, 1-based month, 1-based day. -/
structure YMD where
  year : Int
  month : Nat
  day : Nat
deriving DecidableEq

/-- Gregorian leap-year test. -/
def isLeap (y : Int) : Bool :=
  (y % 4 == 0 && y % 100 != 0) || y % 400 == 0

/-- Number of days of month `m` (1..12) of year `y`. -/
def daysInMonth (y : Int) (m : Nat) : Nat :=
  if m = 2 then (if isLeap y then 29 else 28)
  else if m = 4 ∨ m = 6 ∨ m = 9 ∨ m = 11 then 30 else 31

/-- A `YMD` is an actual calendar date. -/
def YMD.valid (d : YMD) : Prop :=
  1 ≤ d.month ∧ d.month ≤ 12 ∧ 1 ≤ d.day ∧ d.day ≤ daysInMonth d.year d.month

instance (d : YMD) : Decidable d.valid := by
  unfold YMD.valid; infer_instance

/-- Linear key implementing the timestamp order of JavaScript Dates: for valid
dates, `key a < key b` iff `a` is an earlier calendar day than `b`. -/
def key (d : YMD) : Int :=
  d.year * 1000 + (d.month : Int) * 50 + (d.day : Int)

/-- 0-based linear month index `12*year + (month-1)`. -/
def monthIdx (d : YMD) : Int :=
  d.year * 12 + (d.month : Int) - 1

/-- Days since 1970-01-01 of a civil date (standard days-from-civil
algorithm over the proleptic Gregorian calendar). -/
def daysFromCivil (y : Int) (m d : Nat) : Int :=
  let y2 : Int := if m ≤ 2 then y - 1 else y
  let era : Int := y2 / 400
  let yoe : Int := y2 - era * 400
  let mp : Int := if 2 < m then (m : Int) - 3 else (m : Int) + 9
  let doy : Int := (153 * mp + 2) / 5 + (d : Int) - 1
  let doe : Int := yoe * 365 + yoe / 4 - yoe / 100 + doy
  era * 146097 + doe - 719468

/-- Day number of a `YMD`. -/
def YMD.days (d : YMD) : Int := daysFromCivil d.year d.month d.day

/-- `Math.round`: round half away from zero towards plus infinity. -/
def jsRound (q : ℚ) : Int := ⌊q + 1/2⌋

/-- Decimal.js `toDecimalPlaces(0)` under the library-wide
`Decimal.ROUND_HALF_EVEN` configuration: round to the nearest integer,
ties to the even neighbour. -/
def roundHE (q : ℚ) : Int :=
  if q - ⌊q⌋ < 1/2 then ⌊q⌋
  else if 1/2 < q - ⌊q⌋ then ⌊q⌋ + 1
  else if 2 ∣ ⌊q⌋ then ⌊q⌋ else ⌊q⌋ + 1

/-- src/enums.ts: day count conventions. -/
inductive DayCountConvention where
  | THIRTY_U_360
  | THIRTY_360
  | THIRTY_E_360
  | ACTUAL_ACTUAL
  | ACTUAL_360
  | ACTUAL_365
deriving DecidableEq

/-- src/enums.ts: price modes. -/
inductive PriceMode where
  | Clean
  | Dirty
deriving DecidableEq

namespace DayCountCalculator

/-- src/utils.ts `actual`: `Math.abs(end.diff(start, "days").days)`. -/
def actual (s e : YMD) : ℚ := |((e.days - s.days : Int) : ℚ)|

/-- Days in year `y` (365 or 366). -/
def daysInYear (y : Int) : ℚ := if isLeap y then 366 else 365

/-- Fraction of a day corresponding to 23:59:59.999, the time-of-day of a
luxon `endOf("year")` instant (in milliseconds of the day). -/
def msEndFrac : ℚ := 86399999 / 86400000

/-- src/utils.ts `actualActual` loop body.  `current` positions are fractional
day numbers; the civil year of the current instant is carried alongside
(initially the start date's year, afterwards the year of the Jan-1 instant
the loop advanced to).  Each step adds
`Math.abs(nextBreak.diff(current, "days").days) / daysInYear`, splitting at
`current.endOf("year")` (Dec 31, 23:59:59.999) as the source does. -/
def actualActualAux (endPos : ℚ) : Nat → Int → ℚ → ℚ
  | 0, _, _ => 0
  | fuel + 1, curYear, curPos =>
    if curPos < endPos then
      if (daysFromCivil curYear 12 31 : ℚ) + msEndFrac < endPos then
        |(daysFromCivil curYear 12 31 : ℚ) + msEndFrac + 1 - curPos| / daysInYear curYear +
          actualActualAux endPos fuel (curYear + 1)
            ((daysFromCivil curYear 12 31 : ℚ) + msEndFrac + 1)
      else
        |endPos - curPos| / daysInYear curYear
    else 0

/-- src/utils.ts `actualActual`: partition the span at calendar-year
boundaries and weight each segment by its starting year's length. -/
def actualActual (s e : YMD) : ℚ :=
  actualActualAux ((e.days : ℚ)) ((e.year - s.year).toNat + 2) s.year ((s.days : ℚ))

/-- Day-of-month clamp `if (d === 31) d = 30` shared by the 30/360 family. -/
def clamp31 (d : Nat) : Int := if d = 31 then 30 else (d : Int)

/-- src/utils.ts `thirtyUS360` day count numerator (30/360 US bond basis):
clamp start day 31 to 30; clamp end day 31 to 30 only if the clamped
start day is at least 30. -/
def days360US (s e : YMD) : Int :=
  (e.year - s.year) * 360 + ((e.month : Int) - (s.month : Int)) * 30 +
    ((if e.day = 31 ∧ 30 ≤ clamp31 s.day then 30 else (e.day : Int)) - clamp31 s.day)

/-- src/utils.ts `thirtyE360` day count numerator (30E/360): clamp day 31 to
30 independently on both dates. -/
def days360E (s e : YMD) : Int :=
  (e.year - s.year) * 360 + ((e.month : Int) - (s.month : Int)) * 30 +
    (clamp31 e.day - clamp31 s.day)

/-- src/utils.ts `thirtyUS360`. -/
def thirtyUS360 (s e : YMD) : ℚ := ((days360US s e : Int) : ℚ) / 360

/-- src/utils.ts `thirtyE360`. -/
def thirtyE360 (s e : YMD) : ℚ := ((days360E s e : Int) : ℚ) / 360

/-- src/utils.ts `yearFraction`: returns 0 for invalid dates or `end ≤ start`,
otherwise dispatches on the convention.  All six enum conventions are
implemented, so the `default: throw` branch of the source is unreachable. -/
def yearFraction (s e : YMD) (conv : DayCountConvention) : ℚ :=
  if ¬(s.valid ∧ e.valid) ∨ key e ≤ key s then 0
  else
    match conv with
    | .ACTUAL_ACTUAL => actualActual s e
    | .ACTUAL_360 => actual s e / 360
    | .ACTUAL_365 => actual s e / 365
    | .THIRTY_360 => thirtyUS360 s e
    | .THIRTY_U_360 => thirtyUS360 s e
    | .THIRTY_E_360 => thirtyE360 s e

end DayCountCalculator

/-- JavaScript `next.setMonth(next.getMonth() + per)` followed by the source's
end-of-month adjustment `if (next.getDate() !== current.getDate()) next.setDate(0)`:
adding `per` months keeps the day-of-month when the target month is long
enough; otherwise JavaScript rolls the date into the following month, the
day-of-month changes, and `setDate(0)` lands on the last day of the target
month.  Net effect: advance the linear month index by `per` and clamp the day
to the target month's length. -/
def addMonthsClamp (d : YMD) (per : Nat) : YMD :=
  let M : Int := monthIdx d + per
  let y : Int := M / 12
  let m : Nat := (M % 12).toNat + 1
  let dim : Nat := daysInMonth y m
  { year := y, month := m, day := if d.day ≤ dim then d.day else dim }

/-- The coupon-schedule loop of `MajikBond.generateCouponSchedule` (and the
identical loop of `BondCashflow.generate`): while `current < end`, advance by
`per` months with end-of-month clamping and push `next`, capped at the
maturity end date; `current` follows the (un-capped) advanced date. -/
def genSchedule (endD : YMD) (per : Nat) : Nat → YMD → List YMD
  | 0, _ => []
  | fuel + 1, current =>
    if key current < key endD then
      (if key endD < key (addMonthsClamp current per) then endD
       else addMonthsClamp current per)
        :: genSchedule endD per fuel (addMonthsClamp current per)
    else []

/-- src/types.ts `BondTaxSettings`.  The optional rate fields are modelled as
rationals; JavaScript truthiness tests on them become `≠ 0`. -/
structure BondTaxSettings where
  enabled : Bool
  interestFWT : ℚ
  capitalGains : ℚ
  estateOrDonor : ℚ
deriving DecidableEq

/-- src/types.ts `BondMaturity` (field `end` is `endD`, `end` being reserved). -/
structure BondMaturity where
  start : YMD
  endD : YMD
  years : ℚ
  issueDate : Option YMD
deriving DecidableEq

/-- Buy/sell price ratios; `sell` is nullable. -/
structure BondPriceQuote where
  buy : ℚ
  sell : Option ℚ
deriving DecidableEq

/-- Cashflow row (src/types.ts `CashflowSummary`).  Monetary fields are
MajikMoney amounts, modelled in major units; the date label keeps the coupon
date itself. -/
structure CashflowRow where
  period : Nat
  date : YMD
  interest : ℚ
  principal : ℚ
  total : ℚ
  tax : ℚ
deriving DecidableEq

/-- The `MajikBond` aggregate (src, part_001): faceValue is a MajikMoney
amount, modelled in major units of the default PHP currency; the private
plot-only `ytm_curve` cache and the currency code are not modelled. -/
structure MajikBond where
  faceValue : ℚ
  couponRate : ℚ
  maturity : BondMaturity
  price : BondPriceQuote
  frequency : Nat
  marketRate : ℚ
  dayCount : DayCountConvention
  cashflowSummary : List CashflowRow
  tax : BondTaxSettings
  priceMode : PriceMode
deriving DecidableEq

/-- Fuel that provably suffices for the coupon-schedule loop. -/
def scheduleFuel (b : MajikBond) : Nat :=
  (monthIdx b.maturity.endD - monthIdx b.maturity.start).toNat + 2

/-- `MajikBond.generateCouponSchedule` (part_001 lines 974-1002): months per
period is `12 / frequency`. -/
def MajikBond.generateCouponSchedule (b : MajikBond) : List YMD :=
  genSchedule b.maturity.endD (12 / b.frequency) (scheduleFuel b) b.maturity.start

-- BondAccrual ---------------------------------------------------------------
namespace BondAccrual

/-- The `lastCoupon` search loop of `BondAccrual.accruedInterest`: walk the
schedule, stopping at the first coupon date strictly after the valuation
date; `acc` starts at the issue date. -/
def findLastCoupon (asOf : YMD) : YMD → List YMD → YMD
  | acc, [] => acc
  | acc, c :: rest => if key asOf < key c then acc else findLastCoupon asOf c rest

/-- Gross accrued interest `faceValue × couponRate × fraction`, reduced by
the withholding `accruedMajor.sub(accruedMajor.mul(interestFWT))` when tax is
enabled with a truthy rate. -/
def accruedNet (b : MajikBond) (fraction : ℚ) : ℚ :=
  if b.tax.enabled ∧ b.tax.interestFWT ≠ 0
  then b.faceValue * b.couponRate * fraction -
    b.faceValue * b.couponRate * fraction * b.tax.interestFWT
  else b.faceValue * b.couponRate * fraction

/-- `BondAccrual.accruedInterest` (part_000 lines 29-91): zero for an empty
schedule, at or before the first coupon, and for a non-positive year
fraction; otherwise the net accrual since the `lastCoupon` found by the
linear search, rounded half-even to whole major units
(`toDecimalPlaces(0, ROUND_HALF_EVEN)` on the major amount, then
`fromMajor`). -/
def accruedInterest (b : MajikBond) (asOf : YMD) : ℚ :=
  match b.generateCouponSchedule with
  | [] => 0
  | c0 :: rest =>
    if key asOf ≤ key c0 then 0
    else
      if DayCountCalculator.yearFraction
          (findLastCoupon asOf b.maturity.start (c0 :: rest)) asOf b.dayCount ≤ 0 then 0
      else ((roundHE (accruedNet b (DayCountCalculator.yearFraction
        (findLastCoupon asOf b.maturity.start (c0 :: rest)) asOf b.dayCount)) : Int) : ℚ)

end BondAccrual

-- BondCashflow ---------------------------------------------------------------
namespace BondCashflow

/-- One row of `BondCashflow.generate` (src/cashflow.ts lines 39-59):
`cp.1` is the coupon date, `cp.2` the previous date (issue date for the first
row); gross interest is face × couponRate × yearFraction over the true period,
withholding is split out when enabled, principal is the full face value on the
last row only, and every monetary field goes through `toDecimalPlaces(0)`
(half-even, to whole major units) before `MajikMoney.fromMajor`. -/
def rowGross (b : MajikBond) (cp : YMD × YMD) : ℚ :=
  b.faceValue * b.couponRate * DayCountCalculator.yearFraction cp.2 cp.1 b.dayCount

/-- The withheld-tax amount of a row: `grossInterest × interestFWT` when tax
is enabled with a truthy rate, else 0. -/
def rowTax (b : MajikBond) (cp : YMD × YMD) : ℚ :=
  if b.tax.enabled ∧ b.tax.interestFWT ≠ 0 then rowGross b cp * b.tax.interestFWT else 0

def rowOf (b : MajikBond) (lastIdx : Nat) (i : Nat) (cp : YMD × YMD) : CashflowRow :=
  { period := i + 1
    date := cp.1
    interest := ((roundHE (rowGross b cp - rowTax b cp) : Int) : ℚ)
    principal := ((roundHE (if i = lastIdx then b.faceValue else 0) : Int) : ℚ)
    total := ((roundHE ((rowGross b cp - rowTax b cp) +
      (if i = lastIdx then b.faceValue else 0)) : Int) : ℚ)
    tax := ((roundHE (rowTax b cp) : Int) : ℚ) }

/-- `BondCashflow.generate` (src/cashflow.ts).  Its schedule loop (lines
26-32) is byte-for-byte the loop of `MajikBond.generateCouponSchedule`, so the
same `genSchedule` embedding is reused; each coupon date is paired with the
previous scheduled date (`idx === 0 ? issueDate : schedule[idx-1]`). -/
def generate (b : MajikBond) : List CashflowRow :=
  let schedule := b.generateCouponSchedule
  (List.enum (schedule.zip (b.maturity.start :: schedule))).map
    (fun p => rowOf b (schedule.length - 1) p.1 p.2)

end BondCashflow

/-- Decimal.js `pow`.  Powers with integer exponents (the only ones exercised
by the theorems below) are exact; Decimal.js approximates fractional-exponent
powers, which is outside the scope of the exact-rational model and mapped
to 0 here. -/
def qpow (b e : ℚ) : ℚ := if e.den = 1 then b ^ e.num else 0

namespace BondPricing

/-- `BondPricing.computePrice` (src/pricing.ts lines 20-53): discount each
scheduled coupon strictly after the valuation date at
`(1 + rate/frequency) ^ (yearFraction × frequency)`, add the face value
discounted at the final exponent, divide by the face value; `Dirty` mode adds
the accrued interest before the division.  An empty schedule makes
`schedule[schedule.length - 1]` undefined in the source and its luxon year
fraction 0, which the `none` branch mirrors. -/
def computePrice (b : MajikBond) (rate : ℚ) (asOf : YMD) (mode : PriceMode) : ℚ :=
  let schedule := b.generateCouponSchedule
  let faceMaj := b.faceValue
  let couponMaj := faceMaj * b.couponRate / (b.frequency : ℚ)
  let baseRate := 1 + rate / (b.frequency : ℚ)
  let couponPV := (schedule.map (fun d =>
    let t := DayCountCalculator.yearFraction asOf d b.dayCount * (b.frequency : ℚ)
    if t ≤ 0 then 0 else couponMaj / qpow baseRate t)).sum
  let totalPeriods := (match schedule.getLast? with
    | some d => DayCountCalculator.yearFraction asOf d b.dayCount
    | none => 0) * (b.frequency : ℚ)
  let priceMaj := couponPV + faceMaj / qpow baseRate totalPeriods
  if mode = PriceMode.Dirty then (priceMaj + BondAccrual.accruedInterest b asOf) / faceMaj
  else priceMaj / faceMaj

/-- The Newton function value and derivative of `solveYTMFromPrice`
(src/pricing.ts lines 89-103) at estimate `y`: the inner loop runs the
Decimal counter `t` over 1, 2, ... while `t ≤ periods`. -/
def newtonFD (couponMaj faceMaj freq periods priceRatio y : ℚ) : ℚ × ℚ :=
  let base := 1 + y / freq
  let n := periods.floor.toNat
  let fSum := ((List.range n).map (fun k => couponMaj / base ^ (k + 1))).sum
  let dfSum := ((List.range n).map (fun k =>
    ((k + 1 : Nat) : ℚ) * couponMaj / (base ^ (k + 1) * base * freq))).sum
  let discountFinal := qpow base periods
  (fSum + (faceMaj / discountFinal - faceMaj * priceRatio),
   -dfSum - periods * faceMaj / (discountFinal * base * freq))

/-- One Newton-Raphson update `y - f/df`. -/
def newtonStep (couponMaj faceMaj freq periods priceRatio y : ℚ) : ℚ :=
  y - (newtonFD couponMaj faceMaj freq periods priceRatio y).1 /
      (newtonFD couponMaj faceMaj freq periods priceRatio y).2

/-- The bounded Newton-Raphson loop of `solveYTMFromPrice`: stop and keep the
current estimate when `|df| < 1e-30`; otherwise step, and stop (keeping the
new estimate) when the step is smaller than the tolerance.  The
`!next.isFinite()` exit of the source cannot fire in exact rational
arithmetic and has no counterpart here. -/
def solveAux (couponMaj faceMaj freq periods priceRatio tol : ℚ) :
    Nat → ℚ → ℚ
  | 0, y => y
  | fuel + 1, y =>
    if |(newtonFD couponMaj faceMaj freq periods priceRatio y).2| < 1 / 10 ^ 30 then y
    else
      if |newtonStep couponMaj faceMaj freq periods priceRatio y - y| < tol then
        newtonStep couponMaj faceMaj freq periods priceRatio y
      else
        solveAux couponMaj faceMaj freq periods priceRatio tol fuel
          (newtonStep couponMaj faceMaj freq periods priceRatio y)

/-- Initial Newton guess `bond.marketRate || bond.couponRate`
(JavaScript `||`: the coupon rate is used when the market rate is 0). -/
def ytmGuess (b : MajikBond) : ℚ :=
  if b.marketRate = 0 then b.couponRate else b.marketRate

/-- `BondPricing.solveYTMFromPrice` (src/pricing.ts lines 72-117). -/
def solveYTMFromPrice (b : MajikBond) (priceRatio maturityYears : ℚ)
    (iterations : Nat) (tolerance : ℚ) : ℚ :=
  if maturityYears ≤ 0 then 0
  else
    let freq : ℚ := (b.frequency : ℚ)
    let faceMaj := b.faceValue
    let couponMaj := faceMaj * b.couponRate / freq
    let periods := maturityYears * freq
    solveAux couponMaj faceMaj freq periods priceRatio tolerance iterations (ytmGuess b)

end BondPricing

-- BondSale -------------------------------------------------------------------
namespace BondSale

/-- `BondSale.getSellPriceRatio` (part_002 lines 19-34): the manual sell
price if set, otherwise the market-implied Dirty price at the bond's current
market rate as of the given date. -/
def getSellPriceRatio (b : MajikBond) (asOf : YMD) : ℚ :=
  match b.price.sell with
  | some s => s
  | none => BondPricing.computePrice b b.marketRate asOf PriceMode.Dirty

/-- `BondSale.computeCapitalGainsTax` (part_002 lines 40-59): zero when tax
is disabled or the capital-gains rate is falsy, zero when the gain ratio is
non-positive, otherwise face × gainRatio × rate. -/
def computeCapitalGainsTax (b : MajikBond) (asOf : YMD) : ℚ :=
  if ¬(b.tax.enabled = true ∧ b.tax.capitalGains ≠ 0) then 0
  else if getSellPriceRatio b asOf - b.price.buy ≤ 0 then 0
  else b.faceValue * (getSellPriceRatio b asOf - b.price.buy) * b.tax.capitalGains

/-- `BondSale.computeNetGain` (part_002 lines 69-85). -/
def computeNetGain (b : MajikBond) (asOf : YMD) : ℚ :=
  b.faceValue * getSellPriceRatio b asOf
    + BondAccrual.accruedInterest b asOf
    - b.faceValue * b.price.buy
    - computeCapitalGainsTax b asOf

/-- Sale-simulation snapshot (src/types.ts `BondSaleSummary`). -/
structure Summary where
  asOfDate : YMD
  cleanPrice : ℚ
  dirtyPrice : ℚ
  accruedInterest : ℚ
  capitalGainsTax : ℚ
  netGain : ℚ
  sellPriceUsed : ℚ
deriving DecidableEq

/-- `BondSale.simulate` (part_002 lines 101-134). -/
def simulate (b : MajikBond) (asOf : YMD) : Summary :=
  { asOfDate := asOf
    cleanPrice := b.faceValue * BondPricing.computePrice b b.marketRate asOf PriceMode.Clean
    dirtyPrice := b.faceValue * BondPricing.computePrice b b.marketRate asOf PriceMode.Dirty
    accruedInterest := BondAccrual.accruedInterest b asOf
    capitalGainsTax := computeCapitalGainsTax b asOf
    netGain := computeNetGain b asOf
    sellPriceUsed := getSellPriceRatio b asOf }

end BondSale

-- BondTax --------------------------------------------------------------------
namespace BondTax

/-- `BondTax.computeCapitalGains` (part_001 lines 33-41): amounts are
MajikMoney; `gain.toMinor() <= 0` is equivalent to `gain ≤ 0` in the exact
money model. -/
def computeCapitalGains (settings : BondTaxSettings) (sellPrice costBasis : ℚ) : ℚ :=
  if ¬(settings.enabled = true ∧ settings.capitalGains ≠ 0) then 0
  else if sellPrice - costBasis ≤ 0 then 0
  else (sellPrice - costBasis) * settings.capitalGains

end BondTax

/-- `MajikBond.getCurrentYield` (part_001 lines 532-536):
`faceValue.multiply(couponRate).ratio(faceValue.multiply(price.buy))`. -/
def MajikBond.getCurrentYield (b : MajikBond) : ℚ :=
  (b.faceValue * b.couponRate) / (b.faceValue * b.price.buy)

/-- `recomputeDerivedData` (part_001 line 966): regenerate the cached
cashflow table from the current field values. -/
def MajikBond.recomputeDerivedData (b : MajikBond) : MajikBond :=
  { b with cashflowSummary := BondCashflow.generate b }

/-- Result of a TypeScript mutator call: the thrown validation error (if
any) next to the state the object is left in.  A thrown error leaves the
mutations already applied in place. -/
def SetterResult := Option String × MajikBond

/-- `setFaceValue` (part_001 lines 745-750): validate, then assign and
recompute (currency code fixed to the PHP default). -/
def MajikBond.setFaceValue (b : MajikBond) (value : ℚ) : Option String × MajikBond :=
  if value ≤ 0 then (some "Face value must be positive", b)
  else (none, MajikBond.recomputeDerivedData { b with faceValue := value })

/-- `setCouponRate` (part_001 lines 768-773). -/
def MajikBond.setCouponRate (b : MajikBond) (rate : ℚ) : Option String × MajikBond :=
  if rate < 0 then (some "Coupon rate cannot be negative", b)
  else (none, MajikBond.recomputeDerivedData { b with couponRate := rate })

/-- `setBuyPrice` (part_001 lines 778-783). -/
def MajikBond.setBuyPrice (b : MajikBond) (p : ℚ) : Option String × MajikBond :=
  if p ≤ 0 then (some "Buy price must be positive", b)
  else (none, MajikBond.recomputeDerivedData { b with price := { b.price with buy := p } })

/-- `setSellPrice` (part_001 lines 785-790). -/
def MajikBond.setSellPrice (b : MajikBond) (p : ℚ) : Option String × MajikBond :=
  if p ≤ 0 then (some "Sell price must be positive", b)
  else (none, MajikBond.recomputeDerivedData { b with price := { b.price with sell := some p } })

/-- `setMarketRate` (part_001 lines 800-806); the YTM-curve plot cache it
also refreshes is not modelled. -/
def MajikBond.setMarketRate (b : MajikBond) (rate : ℚ) : Option String × MajikBond :=
  if rate < 0 then (some "Market rate cannot be negative", b)
  else (none, MajikBond.recomputeDerivedData { b with marketRate := rate })

/-- `setInterestFWT` (part_001 lines 897-903). -/
def MajikBond.setInterestFWT (b : MajikBond) (rate : ℚ) : Option String × MajikBond :=
  if rate < 0 ∨ 1 < rate then (some "Interest FWT must be between 0 and 1", b)
  else (none, MajikBond.recomputeDerivedData { b with tax := { b.tax with interestFWT := rate } })

/-- `setCapitalGains` (part_001 lines 905-911). -/
def MajikBond.setCapitalGains (b : MajikBond) (rate : ℚ) : Option String × MajikBond :=
  if rate < 0 ∨ 1 < rate then (some "Capital gains tax must be between 0 and 1", b)
  else (none, MajikBond.recomputeDerivedData { b with tax := { b.tax with capitalGains := rate } })

/-- `setEstateOrDonor` (part_001 lines 913-919). -/
def MajikBond.setEstateOrDonor (b : MajikBond) (rate : ℚ) : Option String × MajikBond :=
  if rate < 0 ∨ 1 < rate then (some "Estate/Donor tax must be between 0 and 1", b)
  else (none, MajikBond.recomputeDerivedData { b with tax := { b.tax with estateOrDonor := rate } })

/-- `recomputeMaturityYears` (part_001 lines 938-948): throws when the end
date is not strictly after the start date; otherwise recompute `years` via
the day-count year fraction. -/
def MajikBond.recomputeMaturityYears (b : MajikBond) : Option String × MajikBond :=
  if key b.maturity.endD ≤ key b.maturity.start then
    (some "Maturity date must be after issue date", b)
  else
    (none, { b with maturity := { b.maturity with
      years := DayCountCalculator.yearFraction b.maturity.start b.maturity.endD b.dayCount } })

/-- `setMaturityDate` (part_001 lines 870-882): assigns `maturity.end` FIRST,
then validates via `recomputeMaturityYears`; a thrown validation error
therefore leaves the new end date in place.  (The missing-start safety
default cannot fire in the model, where `start` is always present; the
YTM-curve plot refresh is not modelled.) -/
def MajikBond.setMaturityDate (b : MajikBond) (d : YMD) : Option String × MajikBond :=
  let b1 := { b with maturity := { b.maturity with endD := d } }
  match MajikBond.recomputeMaturityYears b1 with
  | (some e, b2) => (some e, b2)
  | (none, b2) => (none, MajikBond.recomputeDerivedData b2)

/-- `setIssueDate` (part_001 lines 850-864): assigns `maturity.start` and
`issueDate` first, then validates via `recomputeMaturityYears`. -/
def MajikBond.setIssueDate (b : MajikBond) (d : YMD) : Option String × MajikBond :=
  let b1 := { b with maturity := { b.maturity with start := d, issueDate := some d } }
  match MajikBond.recomputeMaturityYears b1 with
  | (some e, b2) => (some e, b2)
  | (none, b2) => (none, MajikBond.recomputeDerivedData b2)

/-- A one-year semi-annual bond (Jan 15 2020 to Jan 15 2021, ACTUAL/365) with
a tiny 0.1% coupon and tax disabled. -/
def tinyCouponBond : MajikBond :=
  { faceValue := 5000, couponRate := 1/1000,
    maturity := { start := ⟨2020,1,15⟩, endD := ⟨2021,1,15⟩, years := 1, issueDate := none },
    price := { buy := 1, sell := none }, frequency := 2, marketRate := 1/20,
    dayCount := .ACTUAL_365, cashflowSummary := [], tax := ⟨false, 1/5, 3/20, 0⟩,
    priceMode := .Clean }

/-- A one-year annual zero-coupon 30/360-US bond whose stored market rate
(300%) is far from the rate being recovered. -/
def divergentGuessBond : MajikBond :=
  { faceValue := 1000, couponRate := 0,
    maturity := { start := ⟨2020,1,15⟩, endD := ⟨2021,1,15⟩, years := 1, issueDate := none },
    price := { buy := 1, sell := none }, frequency := 1, marketRate := 3,
    dayCount := .THIRTY_U_360, cashflowSummary := [], tax := ⟨false, 1/5, 3/20, 0⟩,
    priceMode := .Clean }

/-- The same bond with a stored market rate (5%) near the 6% rate being
recovered. -/
def nearGuessBond : MajikBond :=
  { divergentGuessBond with marketRate := 1/20 }

/-- A one-month maturity bond (Jan 15 2020 to Feb 15 2020) with semi-annual
frequency; `years` is the initializer's value `(end - start in ms) / 365.25 days
= 31/365.25`. -/
def shortMaturityBond : MajikBond :=
  { faceValue := 5000, couponRate := 1/20,
    maturity := { start := ⟨2020,1,15⟩, endD := ⟨2020,2,15⟩, years := 124/1461, issueDate := none },
    price := { buy := 1, sell := none }, frequency := 2, marketRate := 1/20,
    dayCount := .ACTUAL_365, cashflowSummary := [], tax := ⟨false, 1/5, 3/20, 0⟩,
    priceMode := .Clean }

/-- A one-year semi-annual bond with face 1825 and coupon rate 1/364, chosen
so the first period's gross interest is exactly 2.5 major units; withholding
tax enabled at 20%. -/
def halfUnitBond : MajikBond :=
  { faceValue := 1825, couponRate := 1/364,
    maturity := { start := ⟨2020,1,15⟩, endD := ⟨2021,1,15⟩, years := 1, issueDate := none },
    price := { buy := 1, sell := none }, frequency := 2, marketRate := 1/20,
    dayCount := .ACTUAL_365, cashflowSummary := [], tax := ⟨true, 1/5, 3/20, 0⟩,
    priceMode := .Clean }

/-- The first generated cashflow row of `halfUnitBond`. -/
def halfUnitRow1 : CashflowRow :=
  { period := 1, date := ⟨2020,7,15⟩, interest := 2, principal := 0, total := 2, tax := 0 }

/-- `tinyCouponBond` with an ordinary 5% coupon. -/
def midCouponBond : MajikBond :=
  { tinyCouponBond with couponRate := 1/20 }

set_option maxRecDepth 8000

-- Basic date lemmas --------------------------------------------------------
theorem daysInMonth_le (y : Int) (m : Nat) : daysInMonth y m ≤ 31 := by
  unfold daysInMonth; split_ifs <;> omega

theorem daysInMonth_pos (y : Int) (m : Nat) : 1 ≤ daysInMonth y m := by
  unfold daysInMonth; split_ifs <;> omega

/-- `key` respects the linear month order on valid dates. -/
theorem key_lt_of_monthIdx_lt {a b : YMD} (ha : a.valid) (hb : b.valid)
    (h : monthIdx a < monthIdx b) : key a < key b := by
  obtain ⟨ha1, ha2, ha3, ha4⟩ := ha
  obtain ⟨hb1, hb2, hb3, hb4⟩ := hb
  have ha5 : a.day ≤ 31 := le_trans ha4 (daysInMonth_le _ _)
  have hb5 : b.day ≤ 31 := le_trans hb4 (daysInMonth_le _ _)
  unfold monthIdx at h
  unfold key
  omega

/-- `key` is injective on valid dates. -/
theorem key_inj {a b : YMD} (ha : a.valid) (hb : b.valid)
    (h : key a = key b) : a = b := by
  obtain ⟨ha1, ha2, ha3, ha4⟩ := ha
  obtain ⟨hb1, hb2, hb3, hb4⟩ := hb
  have ha5 : a.day ≤ 31 := le_trans ha4 (daysInMonth_le _ _)
  have hb5 : b.day ≤ 31 := le_trans hb4 (daysInMonth_le _ _)
  unfold key at h
  obtain ⟨ya, ma, da⟩ := a
  obtain ⟨yb, mb, db⟩ := b
  simp only [YMD.mk.injEq]
  simp only at *
  omega

/-- On valid dates, `key`-order implies month-index order. -/
theorem monthIdx_le_of_key_lt {a b : YMD} (ha : a.valid) (hb : b.valid)
    (h : key a < key b) : monthIdx a ≤ monthIdx b := by
  obtain ⟨ha1, ha2, ha3, ha4⟩ := ha
  obtain ⟨hb1, hb2, hb3, hb4⟩ := hb
  have ha5 : a.day ≤ 31 := le_trans ha4 (daysInMonth_le _ _)
  have hb5 : b.day ≤ 31 := le_trans hb4 (daysInMonth_le _ _)
  unfold key at h
  unfold monthIdx
  omega

theorem addMonthsClamp_valid (d : YMD) (per : Nat) (hd : 1 ≤ d.day) :
    (addMonthsClamp d per).valid := by
  unfold addMonthsClamp YMD.valid
  have h0 : (0:Int) ≤ (monthIdx d + per) % 12 :=
    Int.emod_nonneg _ (by norm_num)
  have h1 : (monthIdx d + per) % 12 < 12 :=
    Int.emod_lt_of_pos _ (by norm_num)
  have h2 := daysInMonth_pos ((monthIdx d + per) / 12) (((monthIdx d + per) % 12).toNat + 1)
  simp only
  refine ⟨by omega, by omega, ?_, ?_⟩ <;> split_ifs <;> omega

theorem monthIdx_addMonthsClamp (d : YMD) (per : Nat) :
    monthIdx (addMonthsClamp d per) = monthIdx d + per := by
  unfold addMonthsClamp monthIdx
  have h0 : (0:Int) ≤ (d.year * 12 + (d.month : Int) - 1 + per) % 12 :=
    Int.emod_nonneg _ (by norm_num)
  have h1 := Int.ediv_add_emod (d.year * 12 + (d.month : Int) - 1 + per) 12
  simp only
  omega

/-- Advancing a valid date by at least one month strictly increases it. -/
theorem key_lt_addMonthsClamp {d : YMD} (hd : d.valid) {per : Nat} (hper : 1 ≤ per) :
    key d < key (addMonthsClamp d per) := by
  apply key_lt_of_monthIdx_lt hd (addMonthsClamp_valid d per hd.2.2.1)
  rw [monthIdx_addMonthsClamp]
  omega

theorem genSchedule_gt (endD : YMD) (per : Nat) (hper : 1 ≤ per) :
    ∀ (fuel : Nat) (current : YMD), current.valid →
      ∀ x ∈ genSchedule endD per fuel current, key current < key x := by
  intro fuel
  induction fuel with
  | zero => intro current _ x hx; simp [genSchedule] at hx
  | succ n ih =>
    intro current hcur x hx
    rw [genSchedule] at hx
    split at hx
    case isFalse => simp at hx
    case isTrue hlt =>
      have hnext := key_lt_addMonthsClamp hcur hper
      rcases List.mem_cons.mp hx with h | h
      · subst h
        split <;> omega
      · exact lt_trans hnext (ih _ (addMonthsClamp_valid _ _ hcur.2.2.1) x h)

/-- Coupon schedules are strictly increasing. -/
theorem genSchedule_pairwise (endD : YMD) (per : Nat) (hper : 1 ≤ per) :
    ∀ (fuel : Nat) (current : YMD), current.valid →
      List.Pairwise (fun a b => key a < key b) (genSchedule endD per fuel current) := by
  intro fuel
  induction fuel with
  | zero => intro current _; simp [genSchedule]
  | succ n ih =>
    intro current hcur
    rw [genSchedule]
    split
    case isFalse => simp
    case isTrue hlt =>
      have hvnext := addMonthsClamp_valid current per hcur.2.2.1
      refine List.pairwise_cons.mpr ⟨?_, ih _ hvnext⟩
      intro x hx
      have hx2 := genSchedule_gt endD per hper n _ hvnext x hx
      -- if the pushed element is the capped end date, the tail is empty
      split
      case isTrue hcap =>
        exfalso
        rcases n with _ | m
        · simp [genSchedule] at hx
        · rw [genSchedule] at hx
          split at hx
          · omega
          · simp at hx
      case isFalse hcap => exact hx2

/-- With enough fuel, a nonempty schedule always ends exactly at the maturity
end date. -/
theorem genSchedule_getLast (endD : YMD) (per : Nat) (hper : 1 ≤ per)
    (hend : endD.valid) :
    ∀ (fuel : Nat) (current : YMD), current.valid →
      key current < key endD →
      monthIdx endD - monthIdx current < fuel →
      (genSchedule endD per fuel current).getLast? = some endD := by
  intro fuel
  induction fuel with
  | zero =>
    intro current hcur hlt hfuel
    have := monthIdx_le_of_key_lt hcur hend hlt
    omega
  | succ n ih =>
    intro current hcur hlt hfuel
    rw [genSchedule, if_pos hlt]
    have hvnext := addMonthsClamp_valid current per hcur.2.2.1
    have hmi := monthIdx_addMonthsClamp current per
    rcases lt_trichotomy (key (addMonthsClamp current per)) (key endD) with h | h | h
    · -- next < end: recurse
      have htail := ih (addMonthsClamp current per) hvnext h (by omega)
      rw [if_neg (by omega)]
      rcases hlist : genSchedule endD per n (addMonthsClamp current per) with _ | ⟨a, l⟩
      · rw [hlist] at htail; simp at htail
      · rw [hlist] at htail
        rw [List.getLast?_cons_cons]
        exact htail
    · -- next = end (as dates, via key injectivity)
      have heq : addMonthsClamp current per = endD := key_inj hvnext hend h
      rw [if_neg (by omega)]
      have htail : genSchedule endD per n (addMonthsClamp current per) = [] := by
        rcases n with _ | m
        · rfl
        · rw [genSchedule, if_neg (by omega)]
      rw [htail, heq]
      rfl
    · -- next > end: push end, tail is empty
      rw [if_pos h]
      have htail : genSchedule endD per n (addMonthsClamp current per) = [] := by
        rcases n with _ | m
        · rfl
        · rw [genSchedule, if_neg (by omega)]
      rw [htail]
      rfl

-- Helper lemmas --------------------------------------------------------------
theorem daysInYear_pos (y : Int) : 0 < DayCountCalculator.daysInYear y := by
  unfold DayCountCalculator.daysInYear; split_ifs <;> norm_num

theorem actualActualAux_nonneg (endPos : ℚ) :
    ∀ (fuel : Nat) (curYear : Int) (curPos : ℚ),
      0 ≤ DayCountCalculator.actualActualAux endPos fuel curYear curPos := by
  intro fuel
  induction fuel with
  | zero => intro y p; simp [DayCountCalculator.actualActualAux]
  | succ n ih =>
    intro y p
    rw [DayCountCalculator.actualActualAux]
    split_ifs
    · exact add_nonneg (div_nonneg (abs_nonneg _) (le_of_lt (daysInYear_pos _))) (ih _ _)
    · exact div_nonneg (abs_nonneg _) (le_of_lt (daysInYear_pos _))
    · exact le_refl 0

theorem days360US_nonneg {s e : YMD} (hs : s.valid) (he : e.valid)
    (h : key s < key e) : 0 ≤ DayCountCalculator.days360US s e := by
  obtain ⟨hs1, hs2, hs3, hs4⟩ := hs
  obtain ⟨he1, he2, he3, he4⟩ := he
  have hs5 : s.day ≤ 31 := le_trans hs4 (daysInMonth_le _ _)
  have he5 : e.day ≤ 31 := le_trans he4 (daysInMonth_le _ _)
  unfold key at h
  unfold DayCountCalculator.days360US DayCountCalculator.clamp31
  split_ifs <;> omega

theorem days360E_nonneg {s e : YMD} (hs : s.valid) (he : e.valid)
    (h : key s < key e) : 0 ≤ DayCountCalculator.days360E s e := by
  obtain ⟨hs1, hs2, hs3, hs4⟩ := hs
  obtain ⟨he1, he2, he3, he4⟩ := he
  have hs5 : s.day ≤ 31 := le_trans hs4 (daysInMonth_le _ _)
  have he5 : e.day ≤ 31 := le_trans he4 (daysInMonth_le _ _)
  unfold key at h
  unfold DayCountCalculator.days360E DayCountCalculator.clamp31
  split_ifs <;> omega

theorem yearFraction_nonneg (s e : YMD) (conv : DayCountConvention) :
    0 ≤ DayCountCalculator.yearFraction s e conv := by
  unfold DayCountCalculator.yearFraction
  split_ifs with hguard
  · exact le_refl 0
  · push_neg at hguard
    obtain ⟨⟨hvs, hve⟩, hlt⟩ := hguard
    cases conv with
    | ACTUAL_ACTUAL =>
      unfold DayCountCalculator.actualActual
      exact actualActualAux_nonneg _ _ _ _
    | ACTUAL_360 => exact div_nonneg (abs_nonneg _) (by norm_num)
    | ACTUAL_365 => exact div_nonneg (abs_nonneg _) (by norm_num)
    | THIRTY_360 =>
      refine div_nonneg ?_ (by norm_num)
      exact_mod_cast days360US_nonneg hvs hve hlt
    | THIRTY_U_360 =>
      refine div_nonneg ?_ (by norm_num)
      exact_mod_cast days360US_nonneg hvs hve hlt
    | THIRTY_E_360 =>
      refine div_nonneg ?_ (by norm_num)
      exact_mod_cast days360E_nonneg hvs hve hlt

theorem yearFraction_zero_of_reversed {s e : YMD} (conv : DayCountConvention)
    (hle : key e ≤ key s) : DayCountCalculator.yearFraction s e conv = 0 := by
  unfold DayCountCalculator.yearFraction
  rw [if_pos (Or.inr hle)]

/-- Claim C7: for every pair of dates and every supported day-count
convention, `yearFraction(start, end, convention)` is non-negative, and it
returns exactly 0 whenever `end ≤ start` (dates ordered as JavaScript
timestamps, i.e. by `key`). -/
theorem yearFraction_nonneg_and_zero_on_reversed (s e : YMD) (conv : DayCountConvention) :
    0 ≤ DayCountCalculator.yearFraction s e conv ∧
      (key e ≤ key s → DayCountCalculator.yearFraction s e conv = 0) :=
  ⟨yearFraction_nonneg s e conv, fun hle => yearFraction_zero_of_reversed conv hle⟩

/-- Witness for C7 at concrete dates, including a pair with `end ≤ start`. -/
theorem yearFraction_nonneg_and_zero_on_reversed_witness :
    0 ≤ DayCountCalculator.yearFraction ⟨2020,1,15⟩ ⟨2020,7,15⟩ .ACTUAL_365 ∧
      DayCountCalculator.yearFraction ⟨2020,7,15⟩ ⟨2020,1,15⟩ .ACTUAL_365 = 0 :=
  ⟨(yearFraction_nonneg_and_zero_on_reversed ⟨2020,1,15⟩ ⟨2020,7,15⟩ .ACTUAL_365).1,
   (yearFraction_nonneg_and_zero_on_reversed ⟨2020,7,15⟩ ⟨2020,1,15⟩ .ACTUAL_365).2 (by decide)⟩

/-- Claim C10 (implicit): for positive face value and positive buy price,
`getCurrentYield` equals `couponRate / price.buy` — the face value cancels
out of `faceValue*couponRate / (faceValue*price.buy)`, so the current yield
does not depend on the face value. -/
theorem getCurrentYield_eq_couponRate_div_buy (b : MajikBond)
    (hf : 0 < b.faceValue) (_hb : 0 < b.price.buy) :
    b.getCurrentYield = b.couponRate / b.price.buy := by
  unfold MajikBond.getCurrentYield
  rw [mul_comm b.faceValue b.couponRate, mul_comm b.faceValue b.price.buy]
  exact mul_div_mul_right _ _ (ne_of_gt hf)

/-- Witness for C10: a 6% bond bought at 0.98 of face, face 1825. -/
theorem getCurrentYield_eq_couponRate_div_buy_witness :
    MajikBond.getCurrentYield
      { faceValue := 1825, couponRate := 3/50,
        maturity := { start := ⟨2020,1,15⟩, endD := ⟨2021,1,15⟩, years := 1, issueDate := none },
        price := { buy := 49/50, sell := none }, frequency := 2, marketRate := 1/20,
        dayCount := .ACTUAL_365, cashflowSummary := [], tax := ⟨false, 1/5, 3/20, 0⟩,
        priceMode := .Clean } = (3/50) / (49/50) :=
  getCurrentYield_eq_couponRate_div_buy _ (by norm_num) (by norm_num)

/-- Claim C6: capital-gains tax is zero whenever the effective sell ratio is
at most the buy ratio (losses never taxed; tax disabled also gives zero), and
when tax is enabled and the sell ratio exceeds the buy ratio it equals
`(sellRatio - buyRatio) * faceValue * capitalGainsRate` (also when the rate
is 0, where both sides vanish).  The delegated `BondTax.computeCapitalGains`
clamps the same way: a sale at or below cost basis is never taxed. -/
theorem capitalGainsTax_clamped_at_zero (b : MajikBond) (asOf : YMD) :
    (BondSale.getSellPriceRatio b asOf ≤ b.price.buy →
      BondSale.computeCapitalGainsTax b asOf = 0) ∧
    (b.tax.enabled = true → b.price.buy < BondSale.getSellPriceRatio b asOf →
      BondSale.computeCapitalGainsTax b asOf =
        (BondSale.getSellPriceRatio b asOf - b.price.buy) * b.faceValue * b.tax.capitalGains) ∧
    (∀ sellPrice costBasis : ℚ, sellPrice ≤ costBasis →
      BondTax.computeCapitalGains b.tax sellPrice costBasis = 0) := by
  refine ⟨?_, ?_, ?_⟩
  · intro hle
    unfold BondSale.computeCapitalGainsTax
    split_ifs with h1 h2
    · rfl
    · exact absurd (by linarith) h2
    · rfl
  · intro hen hlt
    unfold BondSale.computeCapitalGainsTax
    split_ifs with h1 h2
    · exact absurd h2 (by push_neg; linarith)
    · ring
    · -- tax enabled but capitalGains rate is 0 (falsy): both sides are 0
      push_neg at h1
      rw [h1 hen, mul_zero]
  · intro sellPrice costBasis hle
    unfold BondTax.computeCapitalGains
    split_ifs with h1 h2
    · rfl
    · exact absurd (by linarith) h2
    · rfl

/-- Witness for C6: tax enabled at 15%, manual sell 0.9 below buy 1 gives 0;
the same bond with sell 1.1 gives the gain formula. -/
theorem capitalGainsTax_clamped_at_zero_witness :
    BondSale.computeCapitalGainsTax
      { faceValue := 1000, couponRate := 1/20,
        maturity := { start := ⟨2020,1,15⟩, endD := ⟨2021,1,15⟩, years := 1, issueDate := none },
        price := { buy := 1, sell := some (9/10) }, frequency := 2, marketRate := 1/20,
        dayCount := .ACTUAL_365, cashflowSummary := [], tax := ⟨true, 1/5, 3/20, 0⟩,
        priceMode := .Clean } ⟨2020,7,15⟩ = 0 ∧
    BondSale.computeCapitalGainsTax
      { faceValue := 1000, couponRate := 1/20,
        maturity := { start := ⟨2020,1,15⟩, endD := ⟨2021,1,15⟩, years := 1, issueDate := none },
        price := { buy := 1, sell := some (11/10) }, frequency := 2, marketRate := 1/20,
        dayCount := .ACTUAL_365, cashflowSummary := [], tax := ⟨true, 1/5, 3/20, 0⟩,
        priceMode := .Clean } ⟨2020,7,15⟩ = (11/10 - 1) * 1000 * (3/20) := by
  constructor
  · exact (capitalGainsTax_clamped_at_zero _ ⟨2020,7,15⟩).1 (by norm_num [BondSale.getSellPriceRatio])
  · exact (capitalGainsTax_clamped_at_zero _ ⟨2020,7,15⟩).2.1 rfl (by norm_num [BondSale.getSellPriceRatio])

/-- Claim C9: a missing explicit sell price never fails a sale computation:
with `price.sell` unset, the effective sell ratio is (totally) defined and is
the Dirty price at the bond's current market rate as of the sale date, and
capital-gains tax, net gain and the sale simulation are built on that same
ratio; with `price.sell` set, the manual ratio is used instead. -/
theorem sellPriceRatio_total_and_market_implied (b : MajikBond) (asOf : YMD) :
    (∀ s : ℚ, b.price.sell = some s → BondSale.getSellPriceRatio b asOf = s) ∧
    (b.price.sell = none →
      BondSale.getSellPriceRatio b asOf =
        BondPricing.computePrice b b.marketRate asOf PriceMode.Dirty ∧
      (BondSale.simulate b asOf).sellPriceUsed =
        BondPricing.computePrice b b.marketRate asOf PriceMode.Dirty ∧
      BondSale.computeNetGain b asOf =
        b.faceValue * BondPricing.computePrice b b.marketRate asOf PriceMode.Dirty
          + BondAccrual.accruedInterest b asOf
          - b.faceValue * b.price.buy
          - BondSale.computeCapitalGainsTax b asOf) := by
  constructor
  · intro s hs
    unfold BondSale.getSellPriceRatio
    rw [hs]
  · intro h
    have hratio : BondSale.getSellPriceRatio b asOf =
        BondPricing.computePrice b b.marketRate asOf PriceMode.Dirty := by
      unfold BondSale.getSellPriceRatio
      rw [h]
    refine ⟨hratio, ?_, ?_⟩
    · unfold BondSale.simulate
      exact hratio
    · unfold BondSale.computeNetGain
      rw [hratio]

/-- Witness for C9: a concrete bond with no sell price set and one with a
manual sell price. -/
theorem sellPriceRatio_total_and_market_implied_witness :
    BondSale.getSellPriceRatio
      { faceValue := 1000, couponRate := 1/20,
        maturity := { start := ⟨2020,1,15⟩, endD := ⟨2021,1,15⟩, years := 1, issueDate := none },
        price := { buy := 1, sell := none }, frequency := 2, marketRate := 1/20,
        dayCount := .ACTUAL_365, cashflowSummary := [], tax := ⟨false, 1/5, 3/20, 0⟩,
        priceMode := .Clean } ⟨2020,7,20⟩ =
      BondPricing.computePrice
        { faceValue := 1000, couponRate := 1/20,
          maturity := { start := ⟨2020,1,15⟩, endD := ⟨2021,1,15⟩, years := 1, issueDate := none },
          price := { buy := 1, sell := none }, frequency := 2, marketRate := 1/20,
          dayCount := .ACTUAL_365, cashflowSummary := [], tax := ⟨false, 1/5, 3/20, 0⟩,
          priceMode := .Clean } (1/20) ⟨2020,7,20⟩ PriceMode.Dirty ∧
    BondSale.getSellPriceRatio
      { faceValue := 1000, couponRate := 1/20,
        maturity := { start := ⟨2020,1,15⟩, endD := ⟨2021,1,15⟩, years := 1, issueDate := none },
        price := { buy := 1, sell := some (21/20) }, frequency := 2, marketRate := 1/20,
        dayCount := .ACTUAL_365, cashflowSummary := [], tax := ⟨false, 1/5, 3/20, 0⟩,
        priceMode := .Clean } ⟨2020,7,20⟩ = 21/20 :=
  ⟨((sellPriceRatio_total_and_market_implied _ ⟨2020,7,20⟩).2 rfl).1,
   (sellPriceRatio_total_and_market_implied _ ⟨2020,7,20⟩).1 (21/20) rfl⟩

-- C8: solver termination ------------------------------------------------------
theorem solveAux_is_bounded_iterate (couponMaj faceMaj freq periods priceRatio tol : ℚ) :
    ∀ (fuel : Nat) (y : ℚ), ∃ n ≤ fuel,
      BondPricing.solveAux couponMaj faceMaj freq periods priceRatio tol fuel y =
        (fun z => BondPricing.newtonStep couponMaj faceMaj freq periods priceRatio z)^[n] y := by
  intro fuel
  induction fuel with
  | zero => intro y; exact ⟨0, le_refl 0, rfl⟩
  | succ m ih =>
    intro y
    rw [BondPricing.solveAux]
    split_ifs with h1 h2
    · exact ⟨0, Nat.zero_le _, rfl⟩
    · refine ⟨1, by omega, ?_⟩
      rw [Function.iterate_one]
    · obtain ⟨n, hn, heq⟩ := ih (BondPricing.newtonStep couponMaj faceMaj freq periods priceRatio y)
      refine ⟨n + 1, by omega, ?_⟩
      rw [heq, Function.iterate_succ_apply]

/-- Claim C8: the yield solver always terminates: `maturityYears ≤ 0`
short-circuits to 0 without iterating, and otherwise the returned value is
the result of at most `iterations` Newton-Raphson updates applied to the
initial guess (`marketRate || couponRate`) — every exit path (derivative
floor, tolerance, iteration cap) returns the last computed estimate, i.e.
some bounded iterate of `newtonStep`.  (The `!next.isFinite()` exit of the
source cannot fire in exact arithmetic and is not modelled.) -/
theorem solveYTMFromPrice_terminates (b : MajikBond)
    (priceRatio maturityYears : ℚ) (iterations : Nat) (tolerance : ℚ) :
    (maturityYears ≤ 0 →
      BondPricing.solveYTMFromPrice b priceRatio maturityYears iterations tolerance = 0) ∧
    (0 < maturityYears → ∃ n ≤ iterations,
      BondPricing.solveYTMFromPrice b priceRatio maturityYears iterations tolerance =
        (fun z => BondPricing.newtonStep (b.faceValue * b.couponRate / (b.frequency : ℚ))
          b.faceValue (b.frequency : ℚ) (maturityYears * (b.frequency : ℚ))
          priceRatio z)^[n] (BondPricing.ytmGuess b)) := by
  constructor
  · intro h
    unfold BondPricing.solveYTMFromPrice
    rw [if_pos h]
  · intro h
    unfold BondPricing.solveYTMFromPrice
    rw [if_neg (not_le.mpr h)]
    exact solveAux_is_bounded_iterate _ _ _ _ _ _ iterations (BondPricing.ytmGuess b)

/-- Witness for C8: concrete short-circuit on a non-positive maturity, and a
bounded-iterate decomposition for a concrete solve. -/
theorem solveYTMFromPrice_terminates_witness :
    BondPricing.solveYTMFromPrice
      { faceValue := 1000, couponRate := 1/20,
        maturity := { start := ⟨2020,1,15⟩, endD := ⟨2021,1,15⟩, years := 1, issueDate := none },
        price := { buy := 1, sell := none }, frequency := 2, marketRate := 1/20,
        dayCount := .ACTUAL_365, cashflowSummary := [], tax := ⟨false, 1/5, 3/20, 0⟩,
        priceMode := .Clean } 1 (-1) 100 (1/10^12) = 0 ∧
    (∃ n ≤ 100, BondPricing.solveYTMFromPrice
      { faceValue := 1000, couponRate := 1/20,
        maturity := { start := ⟨2020,1,15⟩, endD := ⟨2021,1,15⟩, years := 1, issueDate := none },
        price := { buy := 1, sell := none }, frequency := 2, marketRate := 1/20,
        dayCount := .ACTUAL_365, cashflowSummary := [], tax := ⟨false, 1/5, 3/20, 0⟩,
        priceMode := .Clean } 1 1 100 (1/10^12) =
      (fun z => BondPricing.newtonStep (1000 * (1/20) / ((2:Nat) : ℚ)) 1000 ((2:Nat) : ℚ)
        (1 * ((2:Nat) : ℚ)) 1 z)^[n] (BondPricing.ytmGuess
        { faceValue := 1000, couponRate := 1/20,
          maturity := { start := ⟨2020,1,15⟩, endD := ⟨2021,1,15⟩, years := 1, issueDate := none },
          price := { buy := 1, sell := none }, frequency := 2, marketRate := 1/20,
          dayCount := .ACTUAL_365, cashflowSummary := [], tax := ⟨false, 1/5, 3/20, 0⟩,
          priceMode := .Clean })) :=
  ⟨(solveYTMFromPrice_terminates _ 1 (-1) 100 (1/10^12)).1 (by norm_num),
   (solveYTMFromPrice_terminates _ 1 1 100 (1/10^12)).2 (by norm_num)⟩

-- C4: mutation atomicity ------------------------------------------------------
theorem setter_branch_atomic {c : Prop} [Decidable c] (e : String)
    (b b2 : MajikBond) :
    ((if c then ((some e : Option String), b) else ((none : Option String), b2)).1).isSome = true →
    (if c then ((some e : Option String), b) else ((none : Option String), b2)).2 = b := by
  split_ifs with h
  · intro _; rfl
  · intro hh; simp at hh

/-- Claim C4 (amended part): every validating value setter — setFaceValue,
setCouponRate, setBuyPrice, setSellPrice, setMarketRate, setInterestFWT,
setCapitalGains, setEstateOrDonor — checks its input before assigning, so a
call that throws leaves every field of the bond unchanged. -/
theorem value_setters_atomic (b : MajikBond) :
    (∀ v, (b.setFaceValue v).1.isSome = true → (b.setFaceValue v).2 = b) ∧
    (∀ v, (b.setCouponRate v).1.isSome = true → (b.setCouponRate v).2 = b) ∧
    (∀ v, (b.setBuyPrice v).1.isSome = true → (b.setBuyPrice v).2 = b) ∧
    (∀ v, (b.setSellPrice v).1.isSome = true → (b.setSellPrice v).2 = b) ∧
    (∀ v, (b.setMarketRate v).1.isSome = true → (b.setMarketRate v).2 = b) ∧
    (∀ v, (b.setInterestFWT v).1.isSome = true → (b.setInterestFWT v).2 = b) ∧
    (∀ v, (b.setCapitalGains v).1.isSome = true → (b.setCapitalGains v).2 = b) ∧
    (∀ v, (b.setEstateOrDonor v).1.isSome = true → (b.setEstateOrDonor v).2 = b) := by
  refine ⟨fun v => ?_, fun v => ?_, fun v => ?_, fun v => ?_,
          fun v => ?_, fun v => ?_, fun v => ?_, fun v => ?_⟩
  · unfold MajikBond.setFaceValue; exact setter_branch_atomic _ _ _
  · unfold MajikBond.setCouponRate; exact setter_branch_atomic _ _ _
  · unfold MajikBond.setBuyPrice; exact setter_branch_atomic _ _ _
  · unfold MajikBond.setSellPrice; exact setter_branch_atomic _ _ _
  · unfold MajikBond.setMarketRate; exact setter_branch_atomic _ _ _
  · unfold MajikBond.setInterestFWT; exact setter_branch_atomic _ _ _
  · unfold MajikBond.setCapitalGains; exact setter_branch_atomic _ _ _
  · unfold MajikBond.setEstateOrDonor; exact setter_branch_atomic _ _ _

/-- Witness for C4: rejected mutations on a concrete bond leave it unchanged. -/
theorem value_setters_atomic_witness :
    (tinyCouponBond.setFaceValue (-5)).2 = tinyCouponBond ∧
    (tinyCouponBond.setCouponRate (-1)).2 = tinyCouponBond ∧
    (tinyCouponBond.setInterestFWT 2).2 = tinyCouponBond :=
  ⟨(value_setters_atomic tinyCouponBond).1 (-5) (by decide),
   (value_setters_atomic tinyCouponBond).2.1 (-1) (by decide),
   (value_setters_atomic tinyCouponBond).2.2.2.2.2.1 2 (by decide)⟩

/-- Counterexample for C4 as stated: `setMaturityDate` assigns the new end
date into `maturity` BEFORE `recomputeMaturityYears` validates it, so a
rejected call (maturity date not after the issue date) throws AND leaves the
bond mutated: the maturity end date has changed. -/
theorem setMaturityDate_not_atomic :
    (tinyCouponBond.setMaturityDate ⟨2019,1,15⟩).1.isSome = true ∧
    (tinyCouponBond.setMaturityDate ⟨2019,1,15⟩).2 ≠ tinyCouponBond ∧
    (tinyCouponBond.setMaturityDate ⟨2019,1,15⟩).2.maturity.endD = ⟨2019,1,15⟩ := by
  have hend : (tinyCouponBond.setMaturityDate ⟨2019,1,15⟩).2.maturity.endD = ⟨2019,1,15⟩ := by
    decide
  refine ⟨by decide, ?_, hend⟩
  intro heq
  rw [heq] at hend
  exact absurd hend (by decide)

/-- Claim C2 (amended part): for every bond whose maturity end is strictly
after its start (valid dates, frequency dividing 12), the generated coupon
schedule is a finite, strictly increasing sequence of dates that is nonempty
and whose last element is exactly the maturity end date.  (The claimed length
formula `round(years × frequency)` does not hold in general; see the
counterexample.) -/
theorem generateCouponSchedule_sorted_last (b : MajikBond)
    (hs : b.maturity.start.valid) (he : b.maturity.endD.valid)
    (hper : 1 ≤ 12 / b.frequency)
    (hlt : key b.maturity.start < key b.maturity.endD) :
    List.Pairwise (fun a c => key a < key c) b.generateCouponSchedule ∧
    b.generateCouponSchedule.getLast? = some b.maturity.endD ∧
    b.generateCouponSchedule ≠ [] := by
  have hfuel : monthIdx b.maturity.endD - monthIdx b.maturity.start < (scheduleFuel b : Int) := by
    unfold scheduleFuel
    have := monthIdx_le_of_key_lt hs he hlt
    omega
  have hsorted := genSchedule_pairwise b.maturity.endD (12 / b.frequency) hper
    (scheduleFuel b) b.maturity.start hs
  have hlast := genSchedule_getLast b.maturity.endD (12 / b.frequency) hper he
    (scheduleFuel b) b.maturity.start hs hlt hfuel
  refine ⟨hsorted, hlast, ?_⟩
  intro hnil
  unfold MajikBond.generateCouponSchedule at hnil
  rw [hnil] at hlast
  simp at hlast

/-- Witness for C2 at a concrete one-year semi-annual bond. -/
theorem generateCouponSchedule_sorted_last_witness :
    List.Pairwise (fun a c => key a < key c) tinyCouponBond.generateCouponSchedule ∧
    tinyCouponBond.generateCouponSchedule.getLast? = some ⟨2021,1,15⟩ ∧
    tinyCouponBond.generateCouponSchedule ≠ [] :=
  generateCouponSchedule_sorted_last tinyCouponBond (by decide) (by decide)
    (by decide) (by decide)

/-- Counterexample for C2 as stated: for a bond maturing one month after
issue (end strictly after start), the schedule has exactly one date — the
capped final stub — but `round(years × frequency)` is 0, so the claimed
length formula fails. -/
theorem scheduleLength_ne_round_counterexample :
    key shortMaturityBond.maturity.start < key shortMaturityBond.maturity.endD ∧
    shortMaturityBond.generateCouponSchedule.length = 1 ∧
    jsRound (shortMaturityBond.maturity.years * (shortMaturityBond.frequency : ℚ)) = 0 ∧
    (1 : Nat) ≠ 0 := by
  refine ⟨by decide, by decide, ?_, by decide⟩
  exact of_decide_eq_true (by with_unfolding_all rfl)

/-- Half-even rounding moves a value by at most one half. -/
theorem roundHE_sub_le (q : ℚ) : |((roundHE q : Int) : ℚ) - q| ≤ 1/2 := by
  have h1 : ((⌊q⌋ : Int) : ℚ) ≤ q := Int.floor_le q
  have h2 : q < ((⌊q⌋ : Int) : ℚ) + 1 := Int.lt_floor_add_one q
  unfold roundHE
  split_ifs with ha hb hc <;>
    · rw [abs_le]; push_cast; constructor <;> linarith

/-- Half-even rounding of a value above one half is at least 1. -/
theorem roundHE_pos {q : ℚ} (hq : 1/2 < q) : 1 ≤ roundHE q := by
  have h1 : ((⌊q⌋ : Int) : ℚ) ≤ q := Int.floor_le q
  have h2 : q < ((⌊q⌋ : Int) : ℚ) + 1 := Int.lt_floor_add_one q
  unfold roundHE
  split_ifs with ha hb hc
  · have h3 : (0:ℚ) < ((⌊q⌋ : Int) : ℚ) := by linarith
    have h4 : (0:Int) < ⌊q⌋ := by exact_mod_cast h3
    omega
  · have h3 : (-1:ℚ) < ((⌊q⌋ : Int) : ℚ) := by linarith
    have h4 : (-1:Int) < ⌊q⌋ := by exact_mod_cast h3
    omega
  · have h3 : (0:ℚ) < ((⌊q⌋ : Int) : ℚ) := by linarith
    have h4 : (0:Int) < ⌊q⌋ := by exact_mod_cast h3
    omega
  · have h3 : (0:ℚ) < ((⌊q⌋ : Int) : ℚ) := by linarith
    have h4 : (0:Int) < ⌊q⌋ := by exact_mod_cast h3
    omega

/-- Claim C5 (amended part): every generated cashflow row stores whole-major-
unit amounts — `interest`, `tax` and `principal` are integers of major units,
i.e. the rounding at row construction is half-to-even to whole major currency
units (NOT to the currency's minor unit) — and the stored net interest plus
the stored tax reconstructs the gross interest
`faceValue × couponRate × yearFraction(previousDate, thisDate)` only up to
one major unit (not exactly), the two roundings each moving their amount by
at most half a unit. -/
theorem cashflow_rows_whole_major_units (b : MajikBond) (x : CashflowRow)
    (hx : x ∈ BondCashflow.generate b) :
    (∃ z : Int, x.interest = (z : ℚ)) ∧ (∃ z : Int, x.tax = (z : ℚ)) ∧
    (∃ z : Int, x.principal = (z : ℚ)) ∧
    ∃ cp : YMD × YMD,
      cp ∈ b.generateCouponSchedule.zip (b.maturity.start :: b.generateCouponSchedule) ∧
      |x.interest + x.tax - BondCashflow.rowGross b cp| ≤ 1 := by
  unfold BondCashflow.generate at hx
  obtain ⟨⟨i, cp⟩, hmem, hxeq⟩ := List.mem_map.mp hx
  subst hxeq
  refine ⟨⟨_, rfl⟩, ⟨_, rfl⟩, ⟨_, rfl⟩, cp, ?_, ?_⟩
  · exact List.get?_mem (List.mem_enum_iff_get?.mp hmem)
  · have h1 := roundHE_sub_le (BondCashflow.rowGross b cp - BondCashflow.rowTax b cp)
    have h2 := roundHE_sub_le (BondCashflow.rowTax b cp)
    unfold BondCashflow.rowOf
    dsimp only
    calc |((roundHE (BondCashflow.rowGross b cp - BondCashflow.rowTax b cp) : Int) : ℚ) +
            ((roundHE (BondCashflow.rowTax b cp) : Int) : ℚ) - BondCashflow.rowGross b cp|
        = |(((roundHE (BondCashflow.rowGross b cp - BondCashflow.rowTax b cp) : Int) : ℚ) -
            (BondCashflow.rowGross b cp - BondCashflow.rowTax b cp)) +
           (((roundHE (BondCashflow.rowTax b cp) : Int) : ℚ) - BondCashflow.rowTax b cp)| := by
          ring_nf
      _ ≤ |((roundHE (BondCashflow.rowGross b cp - BondCashflow.rowTax b cp) : Int) : ℚ) -
            (BondCashflow.rowGross b cp - BondCashflow.rowTax b cp)| +
          |((roundHE (BondCashflow.rowTax b cp) : Int) : ℚ) - BondCashflow.rowTax b cp| :=
          abs_add _ _
      _ ≤ 1/2 + 1/2 := add_le_add h1 h2
      _ = 1 := by norm_num

/-- Witness for C5: the first row of the concrete half-unit bond. -/
theorem cashflow_rows_whole_major_units_witness :
    (∃ z : Int, halfUnitRow1.interest = (z : ℚ)) ∧
    (∃ z : Int, halfUnitRow1.tax = (z : ℚ)) ∧
    (∃ z : Int, halfUnitRow1.principal = (z : ℚ)) ∧
    ∃ cp : YMD × YMD,
      cp ∈ halfUnitBond.generateCouponSchedule.zip
        (halfUnitBond.maturity.start :: halfUnitBond.generateCouponSchedule) ∧
      |halfUnitRow1.interest + halfUnitRow1.tax - BondCashflow.rowGross halfUnitBond cp| ≤ 1 :=
  cashflow_rows_whole_major_units halfUnitBond halfUnitRow1
    (of_decide_eq_true (by with_unfolding_all rfl))

/-- Counterexample for C5 as stated: for the half-unit bond the first row's
gross interest is exactly 2.5 major units; the row stores net 2 and tax 0
(each rounded half-even to whole major units separately), so stored net plus
stored tax is 2, not the gross 2.5.  Moreover the second row's net interest
is 184/91 ≈ 2.0220 major units, whose minor-unit (two-decimal) half-even
rounding is 2.02, yet the row stores 2 — the fields are rounded to whole
major units, not to the currency's minor unit. -/
theorem cashflow_rounding_counterexample :
    (BondCashflow.generate halfUnitBond).map (fun r => (r.interest, r.tax)) =
      [((2:ℚ), (0:ℚ)), ((2:ℚ), (1:ℚ))] ∧
    BondCashflow.rowGross halfUnitBond (⟨2020,7,15⟩, ⟨2020,1,15⟩) = 5/2 ∧
    ((2 : ℚ) + 0 ≠ 5/2) ∧
    BondCashflow.rowGross halfUnitBond (⟨2021,1,15⟩, ⟨2020,7,15⟩) -
      BondCashflow.rowTax halfUnitBond (⟨2021,1,15⟩, ⟨2020,7,15⟩) = 184/91 ∧
    ((roundHE (100 * (184/91)) : Int) : ℚ) / 100 ≠ 2 := by
  refine ⟨?_, ?_, ?_, ?_, ?_⟩ <;> exact of_decide_eq_true (by with_unfolding_all rfl)

/-- The `lastCoupon` linear search returns the bracketing coupon: if every
schedule entry up to index `k` is at or before the valuation date and every
later entry is strictly after it, the loop returns entry `k`. -/
theorem findLastCoupon_eq_get (asOf : YMD) :
    ∀ (l : List YMD) (acc : YMD) (k : Nat) (hk : k < l.length),
      (∀ (j : Nat) (hj : j < l.length), j ≤ k → key (l.get ⟨j, hj⟩) ≤ key asOf) →
      (∀ (j : Nat) (hj : j < l.length), k < j → key asOf < key (l.get ⟨j, hj⟩)) →
      BondAccrual.findLastCoupon asOf acc l = l.get ⟨k, hk⟩ := by
  intro l
  induction l with
  | nil =>
    intro acc k hk
    simp at hk
  | cons c rest ih =>
    intro acc k hk hle hgt
    have hc : key c ≤ key asOf := hle 0 (by simp) (Nat.zero_le k)
    rw [BondAccrual.findLastCoupon, if_neg (not_lt.mpr hc)]
    cases k with
    | zero =>
      cases rest with
      | nil => rfl
      | cons c2 r2 =>
        have h2 : key asOf < key c2 := hgt 1 (by simp) (by omega)
        rw [BondAccrual.findLastCoupon, if_pos h2]
        rfl
    | succ k2 =>
      have hk2 : k2 < rest.length := by simpa using hk
      exact ih c k2 hk2
        (fun j hj hjk => hle (j + 1) (by simpa using hj) (by omega))
        (fun j hj hjk => hgt (j + 1) (by simpa using hj) (by omega))

/-- The `lastCoupon` search over a schedule split as `l1 ++ ck :: l2` returns
`ck` when everything in `l1` and `ck` itself are at or before the valuation
date and everything in `l2` is strictly after it. -/
theorem findLastCoupon_append (asOf : YMD) :
    ∀ (l1 : List YMD) (acc ck : YMD) (l2 : List YMD),
      (∀ x ∈ l1, key x ≤ key asOf) → key ck ≤ key asOf →
      (∀ y ∈ l2, key asOf < key y) →
      BondAccrual.findLastCoupon asOf acc (l1 ++ ck :: l2) = ck := by
  intro l1
  induction l1 with
  | nil =>
    intro acc ck l2 _ hck hl2
    rw [List.nil_append, BondAccrual.findLastCoupon, if_neg (not_lt.mpr hck)]
    cases l2 with
    | nil => rfl
    | cons y l2' =>
      rw [BondAccrual.findLastCoupon, if_pos (hl2 y (List.mem_cons_self y l2'))]
  | cons x l1' ih =>
    intro acc ck l2 hl1 hck hl2
    rw [List.cons_append, BondAccrual.findLastCoupon,
      if_neg (not_lt.mpr (hl1 x (List.mem_cons_self x l1')))]
    exact ih x ck l2 (fun z hz => hl1 z (List.mem_cons_of_mem x hz)) hck hl2

/-- Reduction of `accruedInterest` past the first-coupon guard. -/
theorem accruedInterest_formula (b : MajikBond) (asOf c0 : YMD) (rest : List YMD)
    (hsch : b.generateCouponSchedule = c0 :: rest) (h0 : key c0 < key asOf) :
    BondAccrual.accruedInterest b asOf =
      if DayCountCalculator.yearFraction
          (BondAccrual.findLastCoupon asOf b.maturity.start (c0 :: rest)) asOf b.dayCount ≤ 0
      then 0
      else ((roundHE (BondAccrual.accruedNet b (DayCountCalculator.yearFraction
        (BondAccrual.findLastCoupon asOf b.maturity.start (c0 :: rest)) asOf b.dayCount))
          : Int) : ℚ) := by
  simp only [BondAccrual.accruedInterest, hsch]
  rw [if_neg (not_le.mpr h0)]

/-- Claim C3 (amended): accrued interest is zero at or before the first
scheduled coupon date and at every exact coupon boundary (valuation date
equal to a scheduled coupon date); strictly between two consecutive coupon
dates with tax disabled it is strictly positive PROVIDED the gross accrual
`faceValue × couponRate × yearFraction(lastCoupon, asOfDate)` exceeds half a
major currency unit — the source rounds the amount half-even to whole major
units, so smaller mid-period accruals round to zero (and 30/360 conventions
can assign zero length to mid-period spans), refuting the unconditional
strict positivity; see the counterexample. -/
theorem accruedInterest_boundary_zero_and_positivity (b : MajikBond) (asOf : YMD)
    (hs : b.maturity.start.valid) (hper : 1 ≤ 12 / b.frequency) :
    (∀ (c0 : YMD) (rest : List YMD), b.generateCouponSchedule = c0 :: rest →
      key asOf ≤ key c0 → BondAccrual.accruedInterest b asOf = 0) ∧
    (asOf ∈ b.generateCouponSchedule → BondAccrual.accruedInterest b asOf = 0) ∧
    (∀ (l1 : List YMD) (ck ck1 : YMD) (l2 : List YMD),
      b.generateCouponSchedule = l1 ++ ck :: ck1 :: l2 →
      key ck < key asOf → key asOf < key ck1 →
      b.tax.enabled = false →
      1/2 < b.faceValue * b.couponRate *
        DayCountCalculator.yearFraction ck asOf b.dayCount →
      0 < BondAccrual.accruedInterest b asOf) := by
  have hsorted : List.Pairwise (fun a c => key a < key c) b.generateCouponSchedule :=
    genSchedule_pairwise b.maturity.endD (12 / b.frequency) hper (scheduleFuel b)
      b.maturity.start hs
  refine ⟨?_, ?_, ?_⟩
  · -- at or before the first coupon
    intro c0 rest hsch hle
    simp only [BondAccrual.accruedInterest, hsch]
    rw [if_pos hle]
  · -- at an exact coupon boundary
    intro hmem
    obtain ⟨s, t, hq⟩ := List.append_of_mem hmem
    rw [hq] at hsorted
    cases s with
    | nil =>
      simp only [List.nil_append] at hq
      simp only [BondAccrual.accruedInterest, hq]
      rw [if_pos (le_refl (key asOf))]
    | cons x s' =>
      obtain ⟨h1, h2, hcross⟩ := List.pairwise_append.mp hsorted
      have hx : key x < key asOf :=
        hcross x (List.mem_cons_self x s') asOf (List.mem_cons_self asOf t)
      rw [accruedInterest_formula b asOf x (s' ++ asOf :: t)
        (by rw [hq, List.cons_append]) hx]
      have hfind : BondAccrual.findLastCoupon asOf b.maturity.start
          ((x :: s') ++ asOf :: t) = asOf := by
        refine findLastCoupon_append asOf (x :: s') b.maturity.start asOf t ?_
          (le_refl (key asOf)) ?_
        · intro z hz
          exact le_of_lt (hcross z hz asOf (List.mem_cons_self asOf t))
        · intro y hy
          exact (List.pairwise_cons.mp h2).1 y hy
      rw [List.cons_append] at hfind
      rw [hfind, yearFraction_zero_of_reversed b.dayCount (le_refl (key asOf))]
      rw [if_pos (le_refl (0:ℚ))]
  · -- strictly between two consecutive coupons
    intro l1 ck ck1 l2 hsch hck hck1 htax hhalf
    have hsorted2 := hsch ▸ hsorted
    obtain ⟨h1, h2, hcross⟩ := List.pairwise_append.mp hsorted2
    have hfind : BondAccrual.findLastCoupon asOf b.maturity.start
        (l1 ++ ck :: ck1 :: l2) = ck := by
      refine findLastCoupon_append asOf l1 b.maturity.start ck (ck1 :: l2) ?_
        (le_of_lt hck) ?_
      · intro z hz
        exact le_of_lt (lt_trans
          (hcross z hz ck (List.mem_cons_self ck (ck1 :: l2))) hck)
      · intro y hy
        rcases List.mem_cons.mp hy with h | h
        · exact h ▸ hck1
        · exact lt_trans hck1 ((List.pairwise_cons.mp
            (List.pairwise_cons.mp h2).2).1 y h)
    cases l1 with
    | nil =>
      simp only [List.nil_append] at hsch hfind
      rw [accruedInterest_formula b asOf ck (ck1 :: l2) hsch hck, hfind]
      split_ifs with hfr
      · have hfr0 : DayCountCalculator.yearFraction ck asOf b.dayCount = 0 :=
          le_antisymm hfr (yearFraction_nonneg ck asOf b.dayCount)
        rw [hfr0, mul_zero] at hhalf
        norm_num at hhalf
      · have hnet : BondAccrual.accruedNet b
            (DayCountCalculator.yearFraction ck asOf b.dayCount) =
            b.faceValue * b.couponRate *
              DayCountCalculator.yearFraction ck asOf b.dayCount := by
          unfold BondAccrual.accruedNet
          rw [if_neg (by simp [htax])]
        rw [hnet]
        have := roundHE_pos hhalf
        exact_mod_cast this
    | cons x s' =>
      have hx : key x < key asOf := lt_trans
        (hcross x (List.mem_cons_self x s') ck (List.mem_cons_self ck (ck1 :: l2))) hck
      rw [accruedInterest_formula b asOf x (s' ++ ck :: ck1 :: l2)
        (by rw [hsch, List.cons_append]) hx]
      rw [List.cons_append] at hfind
      rw [hfind]
      split_ifs with hfr
      · have hfr0 : DayCountCalculator.yearFraction ck asOf b.dayCount = 0 :=
          le_antisymm hfr (yearFraction_nonneg ck asOf b.dayCount)
        rw [hfr0, mul_zero] at hhalf
        norm_num at hhalf
      · have hnet : BondAccrual.accruedNet b
            (DayCountCalculator.yearFraction ck asOf b.dayCount) =
            b.faceValue * b.couponRate *
              DayCountCalculator.yearFraction ck asOf b.dayCount := by
          unfold BondAccrual.accruedNet
          rw [if_neg (by simp [htax])]
        rw [hnet]
        have := roundHE_pos hhalf
        exact_mod_cast this

/-- Witness for C3: zero at the exact first coupon boundary of the tiny-coupon
bond; strictly positive one day into a period for the 5% bond, whose daily
accrual exceeds half a major unit. -/
theorem accruedInterest_boundary_zero_and_positivity_witness :
    BondAccrual.accruedInterest tinyCouponBond ⟨2020,7,15⟩ = 0 ∧
    0 < BondAccrual.accruedInterest midCouponBond ⟨2020,7,16⟩ :=
  ⟨(accruedInterest_boundary_zero_and_positivity tinyCouponBond ⟨2020,7,15⟩
      (by decide) (by decide)).2.1 (by decide),
   (accruedInterest_boundary_zero_and_positivity midCouponBond ⟨2020,7,16⟩
      (by decide) (by decide)).2.2 [] ⟨2020,7,15⟩ ⟨2021,1,15⟩ [] (by decide)
      (by decide) (by decide) rfl
      (of_decide_eq_true (by with_unfolding_all rfl))⟩

/-- Counterexample for C3 as stated: for the tiny-coupon bond (coupon rate
0.1% > 0, tax disabled), July 16 2020 lies strictly between the two
scheduled coupons July 15 2020 and January 15 2021, yet the accrued interest
is 0 — the gross accrual 5000 × 0.001 × (1/365) ≈ 0.0137 major units rounds
half-even to zero whole major units. -/
theorem accruedInterest_zero_between_coupons_counterexample :
    tinyCouponBond.generateCouponSchedule = [⟨2020,7,15⟩, ⟨2021,1,15⟩] ∧
    key (⟨2020,7,15⟩ : YMD) < key ⟨2020,7,16⟩ ∧
    key (⟨2020,7,16⟩ : YMD) < key ⟨2021,1,15⟩ ∧
    tinyCouponBond.tax.enabled = false ∧
    0 < tinyCouponBond.couponRate ∧
    BondAccrual.accruedInterest tinyCouponBond ⟨2020,7,16⟩ = 0 := by
  refine ⟨by decide, by decide, by decide, rfl, ?_, ?_⟩
  · exact of_decide_eq_true (by with_unfolding_all rfl)
  · exact of_decide_eq_true (by with_unfolding_all rfl)

/-- Counterexample for C1 as stated: the round-trip does not hold for every
bond and every rate r ≥ 0.  For the zero-coupon one-year bond whose stored
market rate (the Newton initial guess) is 300%, the clean price computed at
r = 0 is exactly 1, but the solver diverges (u ↦ 2u − u² with u far outside
the basin), exits on its derivative floor after a handful of iterations and
returns an estimate below −10²⁹ — not within the 1e-12 tolerance of r. -/
theorem solveYTM_roundtrip_counterexample :
    (0 : ℚ) ≤ 0 ∧
    BondPricing.computePrice divergentGuessBond 0
      divergentGuessBond.maturity.start PriceMode.Clean = 1 ∧
    BondPricing.solveYTMFromPrice divergentGuessBond
      (BondPricing.computePrice divergentGuessBond 0
        divergentGuessBond.maturity.start PriceMode.Clean)
      divergentGuessBond.maturity.years 100 (1/10^12) < -(10^29) ∧
    ¬ |BondPricing.solveYTMFromPrice divergentGuessBond
        (BondPricing.computePrice divergentGuessBond 0
          divergentGuessBond.maturity.start PriceMode.Clean)
        divergentGuessBond.maturity.years 100 (1/10^12) - 0| ≤ 1/10^12 := by
  refine ⟨le_refl 0, ?_, ?_, ?_⟩ <;> exact of_decide_eq_true (by with_unfolding_all rfl)

/-- Claim C1 (amended): the price/yield round-trip
`solveYTMFromPrice(bond, computePrice(bond, r, asOf, Clean), maturityYears) ≈ r`
is not universal: it fails when Newton-Raphson diverges from a far-off
initial guess (see the counterexample).  It does hold when the initial guess
(the stored market rate) is near r on a regular schedule: concretely, for the
one-year annual 30/360 zero-coupon bond with guess 5%, recovering r = 6%
from its computed clean price lands within the solver's 1e-12 tolerance. -/
theorem solveYTM_roundtrip_near_guess :
    (0 : ℚ) ≤ 3/50 ∧
    |BondPricing.solveYTMFromPrice nearGuessBond
        (BondPricing.computePrice nearGuessBond (3/50)
          nearGuessBond.maturity.start PriceMode.Clean)
        nearGuessBond.maturity.years 100 (1/10^12) - 3/50| ≤ 1/10^12 := by
  refine ⟨by norm_num, ?_⟩
  exact of_decide_eq_true (by with_unfolding_all rfl)
